import Mathlib

/-!
Shallow embedding of the neumusic repository
(`neumusic_spotify_specific.py` and `neumusic_friday_specific.py`).

Conventions of the embedding:
* Python dicts (insertion ordered) are modelled as association lists
  `List (κ × β)` together with dict-style insert / erase / membership
  operations below.
* Day-precision dates and timestamps are modelled as `Nat` ordinals
  (`strptime`/`strftime` on `%Y-%m-%d` strings is an order isomorphism
  onto day ordinals, and ISO timestamps onto instants); "the day before
  date `d`" is `d - 1`.
* Calls to external services (the Spotify web API, HTTP fetches of the
  scraped pages) are passed in as explicit inputs: a fetch either fails
  (`Except.error`) or yields the full paged result list, and scraped
  pages are token streams (`Tok`) as produced by the HTML parse.
-/

namespace Neumusic

/-- Dict-style membership test on an association list (Python `k in d`). -/
def keyMem {κ β : Type} [DecidableEq κ] (m : List (κ × β)) (k : κ) : Bool :=
  m.any (fun p => decide (p.1 = k))

/-- Dict-style insert (Python `d[k] = v`): overwrite in place when the key is
present, append otherwise. -/
def dictInsert {κ β : Type} [DecidableEq κ] (k : κ) (v : β) (m : List (κ × β)) :
    List (κ × β) :=
  if keyMem m k then m.map (fun p => if p.1 = k then (p.1, v) else p)
  else m ++ [(k, v)]

/-- Dict-style delete (Python `del d[k]`). -/
def eraseKey {κ β : Type} [DecidableEq κ] (m : List (κ × β)) (k : κ) :
    List (κ × β) :=
  m.filter (fun p => !(decide (p.1 = k)))

/-! ## `neumusic_spotify_specific.py`: the release monitor -/

/-- One album entry of the catalog's paged release listing for an artist
(the items returned by `sp.artist_albums` / `sp.next`). -/
structure SpAlbum where
  id : String
  name : String
  album_type : String
  release_date_precision : String
  release_date : Nat
  url : String
deriving DecidableEq

/-- The release dictionaries built by
`SpotifyReleaseMonitor.get_artist_releases`. -/
structure Release where
  id : String
  name : String
  rtype : String
  release_date : Nat
  url : String
deriving DecidableEq

def mkRelease (a : SpAlbum) : Release :=
  { id := a.id, name := a.name, rtype := a.album_type,
    release_date := a.release_date, url := a.url }

/-- `SpotifyReleaseMonitor.get_artist_releases(artist_id, since_date)`.
The catalog call is the `fetch` input: on failure the `except` branch
logs and the accumulated (empty) `releases` list is returned; on success
the full paged album list is filtered to day-precision entries strictly
newer than `since_date` (all of them when `since_date is None`). -/
def get_artist_releases (fetch : Except String (List SpAlbum))
    (since_date : Option Nat) : List Release :=
  match fetch with
  | Except.error _ => []
  | Except.ok all_albums =>
    all_albums.filterMap (fun a =>
      if a.release_date_precision ≠ "day" then none
      else
        match since_date with
        | none => some (mkRelease a)
        | some s => if s < a.release_date then some (mkRelease a) else none)

/-- A value of the `known_releases` ledger
(`self.data["known_releases"][release_key]`). -/
structure NotifiedRelease where
  artist_id : String
  artist_name : String
  name : String
  rtype : String
  release_date : Nat
  url : String
deriving DecidableEq

/-- The `known_releases` dict: release key → recorded release. -/
abbrev Ledger := List (String × NotifiedRelease)

/-- `release_key = f"{artist_id}_{release['id']}"`. -/
def releaseKey (artist_id rel_id : String) : String :=
  artist_id ++ "_" ++ rel_id

/-- `release_key in self.data["known_releases"]`. -/
def isNotified (m : Ledger) (k : String) : Bool := keyMem m k

/-- `self.data["known_releases"][release_key] = {...}`. -/
def recordNotified (m : Ledger) (k : String) (v : NotifiedRelease) : Ledger :=
  dictInsert k v m

def mkNotified (artist_id artist_name : String) (r : Release) : NotifiedRelease :=
  { artist_id := artist_id, artist_name := artist_name, name := r.name,
    rtype := r.rtype, release_date := r.release_date, url := r.url }

/-- The mutable state threaded through one `check_for_new_releases` pass:
the ledger and the `releases_to_send_emails_for` batch (flattened to the
sequence of `(artist_id, release)` appends; the batch dict is non-empty
iff this list is). -/
structure MonitorState where
  known : Ledger
  batch : List (String × Release)
deriving DecidableEq

/-- The body of the `for release in releases:` loop of
`check_for_new_releases`: record and queue the release only when its key
is absent from the ledger and its release date is today or yesterday
(`datetime.now()` resp. `now + timedelta(days=-1)` at check time). -/
def processRelease (today : Nat) (artist_id artist_name : String)
    (st : MonitorState) (r : Release) : MonitorState :=
  let key := releaseKey artist_id r.id
  if ¬ isNotified st.known key = true ∧
      (r.release_date = today ∨ r.release_date = today - 1) then
    { known := recordNotified st.known key (mkNotified artist_id artist_name r),
      batch := st.batch ++ [(artist_id, r)] }
  else st

/-- The body of the `for release in releases:` loop of `run_initial_scan`:
every fetched release is recorded, with no date condition. -/
def initialScanStep (artist_id artist_name : String) (known : Ledger)
    (r : Release) : Ledger :=
  dictInsert (releaseKey artist_id r.id) (mkNotified artist_id artist_name r) known

/-- An entry of `self.data["artists"]`: `{"name": ..., "last_check": ...}`. -/
structure MonArtist where
  name : String
  last_check : Option Nat
deriving DecidableEq

/-- The sort key of `check_for_new_releases`:
`datetime.fromisoformat(last_check)` when set, else the epoch-distant
sentinel `datetime.min` (modelled as `0`, the least timestamp). -/
def sortKey (a : String × MonArtist) : Nat :=
  match a.2.last_check with
  | some t => t
  | none => 0

/-- `sorted(self.data["artists"].items(), key=...)` — Python's `sorted` is a
stable ascending sort by key, modelled by (stable) insertion sort. -/
def sortArtists (artists : List (String × MonArtist)) :
    List (String × MonArtist) :=
  List.insertionSort (fun a b => sortKey a ≤ sortKey b) artists

/-- The outcome of one `check_for_new_releases` pass. -/
structure CheckResult where
  artists : List (String × MonArtist)
  known : Ledger
  batch : List (String × Release)
  dispatched : Bool
deriving DecidableEq

/-- One `check_for_new_releases` pass. `fetch` is the per-artist catalog
call consumed by `get_artist_releases`; `now` is `current_time`, `today`
the current calendar date. After the loop, `send_email_notification` is
invoked iff `len(releases_to_send_emails_for) > 0`. -/
def check_for_new_releases (now today : Nat)
    (fetch : String → Except String (List SpAlbum))
    (artists : List (String × MonArtist)) (known0 : Ledger) : CheckResult :=
  let sorted_artists := sortArtists artists
  let st := sorted_artists.foldl (fun st a =>
      (get_artist_releases (fetch a.1) a.2.last_check).foldl
        (processRelease today a.1 a.2.name) st)
    { known := known0, batch := [] }
  { artists := artists.map (fun a => (a.1, { a.2 with last_check := some now })),
    known := st.known, batch := st.batch,
    dispatched := decide (0 < st.batch.length) }

/-! ## `neumusic_friday_specific.py`: the weekly aggregation emailer -/

/-- A token of a scraped page, as produced by the HTML parse: a row/element
holding a date heading (`marker`), one holding an artist/title entry
(`entry`), or a malformed element whose parse raises and is skipped with a
warning (`junk`). -/
inductive Tok where
  | marker (text : String)
  | entry (artist album : String)
  | junk
deriving DecidableEq

/-- The `date_active` scan shared by `scrape_metacritic`, `scrape_genius`
and `scrape_wikipedia`: a marker textually equal to `ws` sets the flag, a
marker equal to `we` breaks the loop, entries are collected while the flag
is set, and malformed elements are skipped. -/
def extractGo (ws we : String) : List Tok → Bool → List (String × String)
  | [], _ => []
  | Tok.marker t :: rest, inW =>
    if t = ws then extractGo ws we rest true
    else if t = we then []
    else extractGo ws we rest inW
  | Tok.entry a b :: rest, inW =>
    if inW then (a, b) :: extractGo ws we rest inW
    else extractGo ws we rest inW
  | Tok.junk :: rest, inW => extractGo ws we rest inW

/-- Run the window scan over a token stream, starting out of window. -/
def extract (tokens : List Tok) (ws we : String) : List (String × String) :=
  extractGo ws we tokens false

/-- The entry tokens of a stream, in order. -/
def entriesOf (tokens : List Tok) : List (String × String) :=
  tokens.filterMap (fun t =>
    match t with
    | Tok.entry a b => some (a, b)
    | _ => none)

/-- One source's windowed scrape: the start marker is the target date and
the end marker is the target date plus 7 days, both rendered in the
source's native date format `fmt`. -/
def scrapeWindow (fmt : Nat → String) (d : Nat) (tokens : List Tok) :
    List (String × String) :=
  extract tokens (fmt d) (fmt (d + 7))

/-- A whole `scrape_*` call: when the scan collects zero albums the method
appends `errMsg` to `self.errors` and calls `exit()`, which terminates the
process — modelled as `Except.error errMsg` propagating out of the run. -/
def scrapeSource (errMsg : String) (fmt : Nat → String) (d : Nat)
    (tokens : List Tok) : Except String (List (String × String)) :=
  match scrapeWindow fmt d tokens with
  | [] => Except.error errMsg
  | found => Except.ok found

/-- The `sources_data` list built at the top of `collect_albums`: the three
scrapes run sequentially, and any `exit()` aborts everything after it. -/
def collectScrapes (fmtM fmtG fmtW : Nat → String) (d : Nat)
    (tokensM tokensG tokensW : List Tok) :
    Except String (List (String × List (String × String))) := do
  let m ← scrapeSource
    "Metacritic: No albums found or site structure may have changed" fmtM d tokensM
  let g ← scrapeSource
    "Genius: No albums found or site structure may have changed" fmtG d tokensG
  let w ← scrapeSource
    "Wikipedia: No albums found or site structure may have changed" fmtW d tokensW
  pure [("Metacritic", m), ("Genius", g), ("Wikipedia", w)]

/-- The `spotify_info` dict returned by `search_spotify_album`. -/
structure SpotifyInfo where
  uri : String
  tracks : Nat
  image_url : Option String
  spotify_url : String
deriving DecidableEq

/-- The `artist_info` dict returned by `get_artist_info`. -/
structure ArtistInfo where
  genres : List String
  followers : Nat
  popular_works : List String
  spotify_url : String
deriving DecidableEq

/-- A value of `self.albums`:
`{'sources': [...], 'spotify_info': ..., 'artist_info': ...}`. -/
structure AlbumData where
  sources : List String
  spotify_info : Option SpotifyInfo
  artist_info : Option ArtistInfo
deriving DecidableEq

/-- `self.albums`: a dict keyed by the raw `(artist, album)` pair. -/
abbrev Albums := List ((String × String) × AlbumData)

/-- One `(artist, album)` iteration of the processing loop of
`collect_albums`: create the entry if the raw key is absent, then append
the source name to its `sources`. -/
def addMention (albums : Albums) (src : String) (k : String × String) :
    Albums :=
  if keyMem albums k then
    albums.map (fun p =>
      if p.1 = k then (p.1, { p.2 with sources := p.2.sources ++ [src] })
      else p)
  else
    albums ++ [(k, { sources := [src], spotify_info := none, artist_info := none })]

/-- The nested `for source_name, albums_list in sources_data: for artist,
album in albums_list:` processing loop of `collect_albums`. -/
def collectAlbumsFromSources
    (sources_data : List (String × List (String × String))) : Albums :=
  sources_data.foldl
    (fun acc s => s.2.foldl (fun a m => addMention a s.1 m) acc) []

/-- Python `str.lower()` (ASCII case suffices for the claims). -/
def pyLower (s : String) : String := String.mk (s.data.map Char.toLower)

/-- Python `str.strip()`: drop leading and trailing whitespace. -/
def pyStrip (s : String) : String :=
  String.mk
    (((s.data.dropWhile Char.isWhitespace).reverse.dropWhile
        Char.isWhitespace).reverse)

/-- The normalized comparison key of `deduplicate_albums`:
`(artist.lower().strip(), album.lower().strip())`. -/
def normKey (k : String × String) : String × String :=
  (pyStrip (pyLower k.1), pyStrip (pyLower k.2))

/-- `.get('tracks', 0) if spotify_info else 0`. -/
def tracksOf : Option SpotifyInfo → Nat
  | some i => i.tracks
  | none => 0

/-- An entry of `seen_combinations`:
normalized key → `{'original_key': ..., 'spotify_info': ...}`. -/
abbrev Seen := List ((String × String) × ((String × String) × Option SpotifyInfo))

/-- One iteration of `deduplicate_albums` over the snapshot
`list(self.albums.items())`, mutating `(self.albums, seen_combinations)`. -/
def dedupStep (st : Albums × Seen) (item : (String × String) × AlbumData) :
    Albums × Seen :=
  let nk := normKey item.1
  match st.2.find? (fun p => decide (p.1 = nk)) with
  | some entry =>
    if tracksOf entry.2.2 < tracksOf item.2.spotify_info then
      (eraseKey st.1 entry.2.1, dictInsert nk (item.1, item.2.spotify_info) st.2)
    else
      (eraseKey st.1 item.1, st.2)
  | none => (st.1, dictInsert nk (item.1, item.2.spotify_info) st.2)

/-- `AlbumReleaseEmailer.deduplicate_albums`: fold the steps over a
snapshot of the original items, starting from the dict itself and an
empty `seen_combinations`. -/
def deduplicate_albums (albums : Albums) : Albums :=
  (albums.foldl dedupStep (albums, [])).1

/-- A candidate album returned by `self.spotify.search(..., type='album')`. -/
structure CatAlbum where
  uri : String
  total_tracks : Nat
  release_date : Nat
  images : List String
  spotify_url : String
deriving DecidableEq

/-- `release_date in (target, target - 1 day)`. -/
def acceptedDate (target d : Nat) : Bool :=
  decide (d = target) || decide (d = target - 1)

/-- Python's `max(best_albums, key=lambda x: x['total_tracks'])`: scan
left to right, replacing the champion only on a strictly greater key, so
the first maximum wins ties. -/
def maxByTracks (b : CatAlbum) (bs : List CatAlbum) : CatAlbum :=
  bs.foldl (fun acc a => if acc.total_tracks < a.total_tracks then a else acc) b

def toInfo (a : CatAlbum) : SpotifyInfo :=
  { uri := a.uri, tracks := a.total_tracks, image_url := a.images.head?,
    spotify_url := a.spotify_url }

/-- `AlbumReleaseEmailer.search_spotify_album`: `precise` and `broad` are
the (≤ 50 item) result lists of the exact `artist:.. album:..` query and
of the broad free-text query; the broad list is consulted only when the
precise one is empty, survivors of the date filter are ranked by track
count, and an empty survivor set yields `None`. -/
def search_spotify_album (precise broad : List CatAlbum) (target : Nat) :
    Option SpotifyInfo :=
  let albums := if precise.isEmpty then broad else precise
  let best_albums := albums.filter (fun a => acceptedDate target a.release_date)
  match best_albums with
  | [] => none
  | b :: bs => some (toInfo (maxByTracks b bs))

/-- The enrichment loop at the end of `collect_albums`: every surviving
entry gets its `spotify_info` from `search_spotify_album` and its
`artist_info` from `get_artist_info` (which always returns a dict). -/
def enrichAlbums (searchSpotify : String → String → Option SpotifyInfo)
    (artistInfo : String → ArtistInfo) (albums : Albums) : Albums :=
  albums.map (fun p =>
    (p.1, { p.2 with spotify_info := searchSpotify p.1.1 p.1.2,
                     artist_info := some (artistInfo p.1.1) }))

/-- The post-scrape part of `collect_albums`: process the scraped mention
lists into the albums dict, deduplicate, then enrich — in exactly this
order (the dedup runs before any `search_spotify_album` call). -/
def collect_albums (sources_data : List (String × List (String × String)))
    (searchSpotify : String → String → Option SpotifyInfo)
    (artistInfo : String → ArtistInfo) : Albums :=
  enrichAlbums searchSpotify artistInfo
    (deduplicate_albums (collectAlbumsFromSources sources_data))

/-- `AlbumReleaseEmailer.run_once`: collect (scrape → process → dedup →
enrich), then build the HTML and send the email. A successful result
`Except.ok albums` means `send_email` was invoked with the email rendered
from `albums`; an `Except.error` means the process exited inside a scrape
and no email was sent. -/
def run_once (fmtM fmtG fmtW : Nat → String) (d : Nat)
    (tokensM tokensG tokensW : List Tok)
    (searchSpotify : String → String → Option SpotifyInfo)
    (artistInfo : String → ArtistInfo) : Except String Albums := do
  let sources_data ← collectScrapes fmtM fmtG fmtW d tokensM tokensG tokensW
  pure (collect_albums sources_data searchSpotify artistInfo)

/-! ## Supporting lemmas and claim theorems -/

theorem keyMem_dictInsert {κ β : Type} [DecidableEq κ] (m : List (κ × β))
    (k : κ) (v : β) : keyMem (dictInsert k v m) k = true := by
  unfold dictInsert
  split
  case isTrue h =>
    unfold keyMem at h ⊢
    rw [List.any_eq_true] at h ⊢
    obtain ⟨p, hp, he⟩ := h
    rw [decide_eq_true_eq] at he
    refine ⟨(p.1, v), List.mem_map.mpr ⟨p, hp, by rw [if_pos he]⟩, by
      rw [decide_eq_true_eq]; exact he⟩
  case isFalse h =>
    unfold keyMem
    rw [List.any_eq_true]
    exact ⟨(k, v), List.mem_append_right _ (List.mem_singleton.mpr rfl), by
      rw [decide_eq_true_eq]⟩

theorem length_dictInsert_of_mem {κ β : Type} [DecidableEq κ]
    (m : List (κ × β)) (k : κ) (v : β) (h : keyMem m k = true) :
    (dictInsert k v m).length = m.length := by
  unfold dictInsert
  rw [if_pos h, List.length_map]

/-- C1: after `recordNotified` the key tests as notified; a second
`recordNotified` with the same key leaves the ledger's size unchanged; and
inside `check_for_new_releases` a release whose key is already in the
ledger is never appended to the outgoing notification batch. -/
theorem claim_c1_ledger_roundtrip (m : Ledger) (k : String)
    (v v' : NotifiedRelease) :
    isNotified (recordNotified m k v) k = true ∧
    (recordNotified (recordNotified m k v) k v').length =
      (recordNotified m k v).length ∧
    ∀ today artist_id artist_name st r,
      isNotified st.known (releaseKey artist_id r.id) = true →
      (processRelease today artist_id artist_name st r).batch = st.batch := by
  refine ⟨keyMem_dictInsert m k v, ?_, ?_⟩
  · exact length_dictInsert_of_mem _ k v' (keyMem_dictInsert m k v)
  · intro today artist_id artist_name st r h
    unfold processRelease
    rw [if_neg]
    intro hc
    exact hc.1 h

/-- Witness for C1 at a concrete ledger, release and state. -/
theorem claim_c1_witness :
    isNotified (recordNotified []
      "a_r" { artist_id := "a", artist_name := "n", name := "x",
              rtype := "album", release_date := 5, url := "u" }) "a_r" = true ∧
    (recordNotified (recordNotified []
      "a_r" { artist_id := "a", artist_name := "n", name := "x",
              rtype := "album", release_date := 5, url := "u" })
      "a_r" { artist_id := "a", artist_name := "n", name := "y",
              rtype := "single", release_date := 6, url := "u2" }).length =
    (recordNotified []
      "a_r" { artist_id := "a", artist_name := "n", name := "x",
              rtype := "album", release_date := 5, url := "u" }).length ∧
    (processRelease 5 "a" "n"
      { known := [("a_r", { artist_id := "a", artist_name := "n", name := "x",
                            rtype := "album", release_date := 5, url := "u" })],
        batch := [] }
      { id := "r", name := "x", rtype := "album",
        release_date := 5, url := "u" }).batch =
    ({ known := [("a_r", { artist_id := "a", artist_name := "n", name := "x",
                           rtype := "album", release_date := 5, url := "u" })],
       batch := [] } : MonitorState).batch := by
  have h := claim_c1_ledger_roundtrip []
    "a_r" { artist_id := "a", artist_name := "n", name := "x",
            rtype := "album", release_date := 5, url := "u" }
    { artist_id := "a", artist_name := "n", name := "y",
      rtype := "single", release_date := 6, url := "u2" }
  exact ⟨h.1, h.2.1, h.2.2 5 "a" "n" _ _ (by decide)⟩

/-- C10: in the incremental poll pass, a release whose release date is
neither the current date nor the previous day is neither recorded in the
ledger nor queued (the state is untouched); the initial backfill scan, by
contrast, records every fetched release with no date condition. -/
theorem claim_c10_poll_date_gate (today : Nat) (artist_id artist_name : String)
    (st : MonitorState) (r : Release)
    (h1 : r.release_date ≠ today) (h2 : r.release_date ≠ today - 1) :
    processRelease today artist_id artist_name st r = st ∧
    isNotified (initialScanStep artist_id artist_name st.known r)
      (releaseKey artist_id r.id) = true := by
  constructor
  · unfold processRelease
    rw [if_neg]
    intro hc
    rcases hc.2 with h | h
    · exact h1 h
    · exact h2 h
  · exact keyMem_dictInsert _ _ _

/-- Witness for C10: a stale release (dated 3, with today = 10) is dropped
by the poll pass and recorded by the initial scan. -/
theorem claim_c10_witness :
    processRelease 10 "a" "n" { known := [], batch := [] }
      { id := "r", name := "x", rtype := "album",
        release_date := 3, url := "u" } =
      { known := [], batch := [] } ∧
    isNotified (initialScanStep "a" "n" ([] : Ledger)
      { id := "r", name := "x", rtype := "album",
        release_date := 3, url := "u" }) (releaseKey "a" "r") = true := by
  have h := claim_c10_poll_date_gate 10 "a" "n" { known := [], batch := [] }
    { id := "r", name := "x", rtype := "album", release_date := 3, url := "u" }
    (by decide) (by decide)
  exact ⟨h.1, h.2⟩

/-- C6: `get_artist_releases` keeps exactly the day-precision entries
strictly newer than `since_date` (all day-precision entries when
`since_date` is absent), in listing order, and a failing catalog call
yields the empty list instead of aborting. -/
theorem claim_c6_listing_filter :
    (∀ (e : String) (s : Option Nat), get_artist_releases (Except.error e) s = []) ∧
    (∀ l : List SpAlbum, get_artist_releases (Except.ok l) none =
      (l.filter (fun a => decide (a.release_date_precision = "day"))).map mkRelease) ∧
    (∀ (l : List SpAlbum) (s : Nat), get_artist_releases (Except.ok l) (some s) =
      (l.filter (fun a =>
        decide (a.release_date_precision = "day") &&
        decide (s < a.release_date))).map mkRelease) := by
  refine ⟨fun e s => rfl, ?_, ?_⟩
  · intro l
    induction l with
    | nil => rfl
    | cons a l ih =>
      by_cases h : a.release_date_precision = "day" <;>
        simp_all [get_artist_releases, List.filterMap_cons, List.filter_cons]
  · intro l s
    induction l with
    | nil => rfl
    | cons a l ih =>
      by_cases h : a.release_date_precision = "day" <;>
        by_cases h2 : s < a.release_date <;>
          simp_all [get_artist_releases, List.filterMap_cons, List.filter_cons]

/-- C9: `sortArtists` returns the tracked subjects ascending by the
`last_check` key (absent treated as the epoch-distant sentinel `0`), so —
as long as every set `last_check` is a real timestamp, i.e. later than the
sentinel — every never-checked subject precedes every checked one; and
repeated calls on unchanged state produce the same sequence. -/
theorem claim_c9_check_order (artists : List (String × MonArtist))
    (hpos : ∀ a ∈ artists, a.2.last_check ≠ some 0) :
    List.Pairwise (fun a b => sortKey a ≤ sortKey b) (sortArtists artists) ∧
    List.Pairwise (fun a b => b.2.last_check = none → a.2.last_check = none)
      (sortArtists artists) ∧
    sortArtists artists = sortArtists artists := by
  have htot : IsTotal (String × MonArtist) (fun a b => sortKey a ≤ sortKey b) :=
    ⟨fun a b => Nat.le_total _ _⟩
  have htrans : IsTrans (String × MonArtist) (fun a b => sortKey a ≤ sortKey b) :=
    ⟨fun _ _ _ h1 h2 => Nat.le_trans h1 h2⟩
  have hs : List.Sorted (fun a b => sortKey a ≤ sortKey b) (sortArtists artists) :=
    List.sorted_insertionSort _ artists
  refine ⟨hs, ?_, rfl⟩
  refine List.Pairwise.imp_of_mem ?_ hs
  intro a b ha hb hle hbn
  rw [sortArtists, List.mem_insertionSort] at ha
  have hane := hpos a ha
  cases hac : a.2.last_check with
  | none => rfl
  | some t =>
    exfalso
    have hka : sortKey a = t := by simp [sortKey, hac]
    have hkb : sortKey b = 0 := by simp [sortKey, hbn]
    rw [hka, hkb, Nat.le_zero] at hle
    rw [hle] at hac
    exact hane hac

/-- Witness for C9 on a concrete two-subject state. -/
theorem claim_c9_witness :
    List.Pairwise (fun a b => sortKey a ≤ sortKey b)
      (sortArtists [("id1", { name := "n1", last_check := some 5 }),
                    ("id2", { name := "n2", last_check := none })]) ∧
    List.Pairwise (fun a b => b.2.last_check = none → a.2.last_check = none)
      (sortArtists [("id1", { name := "n1", last_check := some 5 }),
                    ("id2", { name := "n2", last_check := none })]) ∧
    sortArtists [("id1", { name := "n1", last_check := some 5 }),
                 ("id2", { name := "n2", last_check := none })] =
    sortArtists [("id1", { name := "n1", last_check := some 5 }),
                 ("id2", { name := "n2", last_check := none })] :=
  claim_c9_check_order
    [("id1", { name := "n1", last_check := some 5 }),
     ("id2", { name := "n2", last_check := none })] (by decide)

/-- Python's `max(_, key=...)` keeps the first maximum: the champion splits
the list into a strictly-smaller prefix and a no-larger remainder. -/
theorem maxByTracks_spec (bs : List CatAlbum) : ∀ b : CatAlbum,
    ∃ l1 l2, b :: bs = l1 ++ maxByTracks b bs :: l2 ∧
      (∀ x ∈ l1, x.total_tracks < (maxByTracks b bs).total_tracks) ∧
      (∀ x ∈ b :: bs, x.total_tracks ≤ (maxByTracks b bs).total_tracks) := by
  induction bs with
  | nil =>
    intro b
    exact ⟨[], [], rfl, by simp, by simp [maxByTracks]⟩
  | cons c cs ih =>
    intro b
    have hstep : maxByTracks b (c :: cs) =
        maxByTracks (if b.total_tracks < c.total_tracks then c else b) cs := rfl
    by_cases h : b.total_tracks < c.total_tracks
    · rw [hstep, if_pos h]
      obtain ⟨l1, l2, hdec, hlt, hle⟩ := ih c
      refine ⟨b :: l1, l2, by rw [List.cons_append, ← hdec], ?_, ?_⟩
      · intro x hx
        rcases List.mem_cons.mp hx with hx | hx
        · rw [hx]
          exact Nat.lt_of_lt_of_le h (hle c (List.mem_cons_self c cs))
        · exact hlt x hx
      · intro x hx
        rcases List.mem_cons.mp hx with hx | hx
        · rw [hx]
          exact Nat.le_of_lt (Nat.lt_of_lt_of_le h (hle c (List.mem_cons_self c cs)))
        · exact hle x hx
    · rw [hstep, if_neg h]
      obtain ⟨l1, l2, hdec, hlt, hle⟩ := ih b
      have hcb : c.total_tracks ≤ b.total_tracks := Nat.le_of_not_lt h
      cases l1 with
      | nil =>
        have hm : maxByTracks b cs = b := by
          rw [List.nil_append] at hdec
          exact (((List.cons.injEq _ _ _ _).mp hdec).1).symm
        refine ⟨[], c :: cs, by rw [hm]; rfl, by simp, ?_⟩
        intro x hx
        rcases List.mem_cons.mp hx with hx | hx
        · rw [hx]
          exact hle b (List.mem_cons_self b cs)
        rcases List.mem_cons.mp hx with hx | hx
        · rw [hx, hm]
          exact hcb
        · exact hle x (List.mem_cons_of_mem b hx)
      | cons x0 l1' =>
        rw [List.cons_append] at hdec
        have hx0 : b = x0 := ((List.cons.injEq _ _ _ _).mp hdec).1
        have hcs : cs = l1' ++ maxByTracks b cs :: l2 :=
          ((List.cons.injEq _ _ _ _).mp hdec).2
        rw [← hx0] at hlt
        have hbm : b.total_tracks < (maxByTracks b cs).total_tracks :=
          hlt b (List.mem_cons_self b l1')
        refine ⟨b :: c :: l1', l2, ?_, ?_, ?_⟩
        · rw [List.cons_append, List.cons_append, ← hcs]
        · intro x hx
          rcases List.mem_cons.mp hx with hx | hx
          · rw [hx]; exact hbm
          rcases List.mem_cons.mp hx with hx | hx
          · rw [hx]; exact Nat.lt_of_le_of_lt hcb hbm
          · exact hlt x (List.mem_cons_of_mem b hx)
        · intro x hx
          rcases List.mem_cons.mp hx with hx | hx
          · rw [hx]; exact Nat.le_of_lt hbm
          rcases List.mem_cons.mp hx with hx | hx
          · rw [hx]; exact Nat.le_trans hcb (Nat.le_of_lt hbm)
          · exact hle x (List.mem_cons_of_mem b hx)

theorem search_eq_of_filter (precise broad : List CatAlbum) (target : Nat)
    (s : List CatAlbum)
    (hs : (if precise.isEmpty then broad else precise).filter
      (fun a => acceptedDate target a.release_date) = s) :
    search_spotify_album precise broad target =
      s.head?.map (fun b => toInfo (maxByTracks b s.tail)) := by
  simp only [search_spotify_album]
  rw [hs]
  cases s with
  | nil => rfl
  | cons b bs => rfl

/-- C5: `search_spotify_album` consults the broad query's results only when
the precise query's result set is empty; when no candidate's release date
is the target date or the day before it, the result is `none` (it never
raises); otherwise the result is a date-accepted candidate of maximal
track count, the first such in candidate order. -/
theorem claim_c5_find_release (precise broad : List CatAlbum) (target : Nat) :
    (precise ≠ [] → ∀ broad', search_spotify_album precise broad target =
      search_spotify_album precise broad' target) ∧
    ((if precise.isEmpty then broad else precise).filter
        (fun a => acceptedDate target a.release_date) = [] →
      search_spotify_album precise broad target = none) ∧
    (∀ s, (if precise.isEmpty then broad else precise).filter
        (fun a => acceptedDate target a.release_date) = s → s ≠ [] →
      ∃ a l1 l2, s = l1 ++ a :: l2 ∧
        (a.release_date = target ∨ a.release_date = target - 1) ∧
        search_spotify_album precise broad target = some (toInfo a) ∧
        (∀ x ∈ s, x.total_tracks ≤ a.total_tracks) ∧
        (∀ x ∈ l1, x.total_tracks < a.total_tracks)) := by
  refine ⟨?_, ?_, ?_⟩
  · intro h broad'
    have he : precise.isEmpty = false := by
      cases precise with
      | nil => exact absurd rfl h
      | cons a l => rfl
    simp only [search_spotify_album, he, Bool.false_eq_true, if_false]
  · intro hs
    rw [search_eq_of_filter precise broad target [] hs]
    rfl
  · intro s hs hne
    cases s with
    | nil => exact absurd rfl hne
    | cons b bs =>
      obtain ⟨l1, l2, hdec, hlt, hle⟩ := maxByTracks_spec bs b
      refine ⟨maxByTracks b bs, l1, l2, hdec, ?_,
        search_eq_of_filter precise broad target (b :: bs) hs, hle, hlt⟩
      have hmem : maxByTracks b bs ∈ b :: bs := by
        rw [hdec]
        exact List.mem_append_right l1 (List.mem_cons_self _ _)
      rw [← hs] at hmem
      have := (List.mem_filter.mp hmem).2
      unfold acceptedDate at this
      simpa using this

/-- Witness for C5: end-to-end scenario B — the precise query is empty, the
broad query returns two candidates dated `target - 1` and an off-window
date; the off-window one is discarded and the matching one returned. -/
theorem claim_c5_witness :
    ∃ a l1 l2,
      ([{ uri := "u1", total_tracks := 3, release_date := 5,
          images := [], spotify_url := "s1" }] : List CatAlbum) =
        l1 ++ a :: l2 ∧
      (a.release_date = 6 ∨ a.release_date = 6 - 1) ∧
      search_spotify_album []
        [{ uri := "u1", total_tracks := 3, release_date := 5,
           images := [], spotify_url := "s1" },
         { uri := "u2", total_tracks := 30, release_date := 99,
           images := [], spotify_url := "s2" }] 6 = some (toInfo a) ∧
      (∀ x ∈ ([{ uri := "u1", total_tracks := 3, release_date := 5,
                 images := [], spotify_url := "s1" }] : List CatAlbum),
        x.total_tracks ≤ a.total_tracks) ∧
      (∀ x ∈ l1, x.total_tracks < a.total_tracks) :=
  (claim_c5_find_release []
    [{ uri := "u1", total_tracks := 3, release_date := 5,
       images := [], spotify_url := "s1" },
     { uri := "u2", total_tracks := 30, release_date := 99,
       images := [], spotify_url := "s2" }] 6).2.2
    [{ uri := "u1", total_tracks := 3, release_date := 5,
       images := [], spotify_url := "s1" }] (by decide) (by decide)

theorem extractGo_pre (ws we : String) (pre rest : List Tok)
    (hpre : ∀ t ∈ pre, t ≠ Tok.marker ws ∧ t ≠ Tok.marker we) :
    extractGo ws we (pre ++ rest) false = extractGo ws we rest false := by
  induction pre with
  | nil => rfl
  | cons t pre ih =>
    have ht := hpre t (List.mem_cons_self t pre)
    have hrest : ∀ u ∈ pre, u ≠ Tok.marker ws ∧ u ≠ Tok.marker we :=
      fun u hu => hpre u (List.mem_cons_of_mem t hu)
    cases t with
    | marker s =>
      have h1 : ¬ s = ws := fun h => ht.1 (by rw [h])
      have h2 : ¬ s = we := fun h => ht.2 (by rw [h])
      simp only [List.cons_append, extractGo, if_neg h1, if_neg h2]
      exact ih hrest
    | entry a b =>
      simp only [List.cons_append, extractGo, if_neg Bool.false_ne_true]
      exact ih hrest
    | junk =>
      simp only [List.cons_append, extractGo]
      exact ih hrest

theorem extractGo_window (ws we : String) (hne : ws ≠ we) (mid post : List Tok)
    (hmid : ∀ t ∈ mid, t ≠ Tok.marker we) :
    extractGo ws we (mid ++ Tok.marker we :: post) true = entriesOf mid := by
  induction mid with
  | nil =>
    have h : ¬ we = ws := fun h => hne h.symm
    simp only [List.nil_append, extractGo, if_neg h, if_pos rfl]
    rfl
  | cons t mid ih =>
    have ht := hmid t (List.mem_cons_self t mid)
    have hrest : ∀ u ∈ mid, u ≠ Tok.marker we :=
      fun u hu => hmid u (List.mem_cons_of_mem t hu)
    cases t with
    | marker s =>
      have h2 : ¬ s = we := fun h => ht (by rw [h])
      have he : entriesOf (Tok.marker s :: mid) = entriesOf mid := rfl
      rw [he, List.cons_append]
      by_cases h1 : s = ws
      · simp only [extractGo, if_pos h1]
        exact ih hrest
      · simp only [extractGo, if_neg h1, if_neg h2]
        exact ih hrest
    | entry a b =>
      have he : entriesOf (Tok.entry a b :: mid) = (a, b) :: entriesOf mid := rfl
      rw [he, List.cons_append]
      simp only [extractGo, if_true]
      rw [ih hrest]
    | junk =>
      have he : entriesOf (Tok.junk :: mid) = entriesOf mid := rfl
      rw [he, List.cons_append]
      simp only [extractGo]
      exact ih hrest

/-- C8: for a token stream holding the window-start marker (the target date
in the source's format) followed by the window content and then the end
marker (the start date plus 7 days in the same format), the scrape returns
exactly the in-window entries, in stream order, and stops collecting at
the end marker (tokens after it are ignored). -/
theorem claim_c8_extract_window (fmt : Nat → String) (d : Nat)
    (pre mid post : List Tok)
    (hne : fmt d ≠ fmt (d + 7))
    (hpre : ∀ t ∈ pre, t ≠ Tok.marker (fmt d) ∧ t ≠ Tok.marker (fmt (d + 7)))
    (hmid : ∀ t ∈ mid, t ≠ Tok.marker (fmt (d + 7))) :
    scrapeWindow fmt d
      (pre ++ Tok.marker (fmt d) :: (mid ++ Tok.marker (fmt (d + 7)) :: post)) =
      entriesOf mid := by
  unfold scrapeWindow extract
  rw [extractGo_pre (fmt d) (fmt (d + 7)) pre _ hpre]
  simp only [extractGo, if_pos rfl]
  exact extractGo_window (fmt d) (fmt (d + 7)) hne mid post hmid

/-- Witness for C8 on a concrete stream: entries before the start marker
and after the end marker are dropped, the in-window entry is kept, and the
malformed in-window element is skipped. -/
theorem claim_c8_witness :
    scrapeWindow (fun n => toString n) 0
      ([Tok.entry "p" "q", Tok.marker "x"] ++ Tok.marker (toString 0) ::
        ([Tok.entry "a" "b", Tok.junk] ++ Tok.marker (toString 7) ::
          [Tok.entry "c" "d"])) =
      entriesOf [Tok.entry "a" "b", Tok.junk] :=
  claim_c8_extract_window (fun n => toString n) 0
    [Tok.entry "p" "q", Tok.marker "x"] [Tok.entry "a" "b", Tok.junk]
    [Tok.entry "c" "d"] (by decide) (by decide) (by decide)

/-- C2 counterexample: with an empty Metacritic token stream, the run
aborts with the Metacritic error (the scrape calls `exit()`), even though
the Genius stream holds a perfectly scrapable in-window mention — the
remaining sources are not scraped and contribute nothing, so the failure
is fatal to the overall run, contrary to the claim. -/
theorem claim_c2_counterexample :
    collectScrapes (fun n => toString n) (fun n => toString n)
      (fun n => toString n) 0 []
      [Tok.marker (toString 0), Tok.entry "x" "y", Tok.marker (toString 7)]
      [Tok.marker (toString 0), Tok.entry "z" "w", Tok.marker (toString 7)] =
      Except.error
        "Metacritic: No albums found or site structure may have changed" ∧
    scrapeSource "Genius: No albums found or site structure may have changed"
      (fun n => toString n) 0
      [Tok.marker (toString 0), Tok.entry "x" "y", Tok.marker (toString 7)] =
      Except.ok [("x", "y")] :=
  ⟨rfl, rfl⟩

/-- C2 (amended): a source whose date-window extraction collects zero
mentions is fatal to the entire run, not only to that source's
contribution: the scrape exits the process with that source's error, so
the later sources are not scraped and nothing is aggregated. -/
theorem claim_c2_amended (fmtM fmtG fmtW : Nat → String) (d : Nat)
    (tokensM tokensG tokensW : List Tok) :
    (scrapeWindow fmtM d tokensM = [] →
      collectScrapes fmtM fmtG fmtW d tokensM tokensG tokensW =
        Except.error
          "Metacritic: No albums found or site structure may have changed") ∧
    (scrapeWindow fmtM d tokensM ≠ [] → scrapeWindow fmtG d tokensG = [] →
      collectScrapes fmtM fmtG fmtW d tokensM tokensG tokensW =
        Except.error
          "Genius: No albums found or site structure may have changed") := by
  constructor
  · intro h
    simp only [collectScrapes, scrapeSource, h]
    rfl
  · intro hM hG
    cases hM2 : scrapeWindow fmtM d tokensM with
    | nil => exact absurd hM2 hM
    | cons a l =>
      simp only [collectScrapes, scrapeSource, hM2, hG]
      rfl

/-- Witness for the amended C2 at concrete streams: a failing first source
aborts the run, and a failing second source aborts it after a successful
first one. -/
theorem claim_c2_amended_witness :
    collectScrapes (fun n => toString n) (fun n => toString n)
      (fun n => toString n) 0 [] [Tok.entry "x" "y"] [] =
      Except.error
        "Metacritic: No albums found or site structure may have changed" ∧
    collectScrapes (fun n => toString n) (fun n => toString n)
      (fun n => toString n) 0
      [Tok.marker (toString 0), Tok.entry "x" "y"] [] [] =
      Except.error
        "Genius: No albums found or site structure may have changed" :=
  ⟨(claim_c2_amended (fun n => toString n) (fun n => toString n)
      (fun n => toString n) 0 [] [Tok.entry "x" "y"] []).1 (by decide),
   (claim_c2_amended (fun n => toString n) (fun n => toString n)
      (fun n => toString n) 0
      [Tok.marker (toString 0), Tok.entry "x" "y"] [] []).2
     (by decide) (by decide)⟩

/-- C3 counterexample: the case/whitespace variants `("Drake", "For All The
Dogs")` from source1 and `(" drake ", "for all the dogs")` from source2
collapse to one surviving entity, but the survivor's `sources` is only
`["source1"]` — the second mention's sourceId is dropped, not unioned, so
the claim's union property fails on this input. -/
theorem claim_c3_counterexample :
    deduplicate_albums (collectAlbumsFromSources
      [("source1", [("Drake", "For All The Dogs")]),
       ("source2", [(" drake ", "for all the dogs")])]) =
    [(("Drake", "For All The Dogs"),
      { sources := ["source1"], spotify_info := none, artist_info := none })] ∧
    (deduplicate_albums (collectAlbumsFromSources
      [("source1", [("Drake", "For All The Dogs")]),
       ("source2", [(" drake ", "for all the dogs")])])).map
        (fun p => p.2.sources) = [["source1"]] :=
  ⟨rfl, rfl⟩

/-- C3 (amended): grouping is case/whitespace-insensitive and collapses a
group of variant mentions to exactly one surviving entity, but the
survivor's `sources` field holds only the sourceIds of the mentions whose
raw `(artist, title)` pair equals the survivor's key exactly; sourceIds of
differently-spelled mentions of the group are discarded. Sources are
unioned only on exact raw-key equality. -/
theorem claim_c3_amended (a1 t1 a2 t2 s1 s2 : String)
    (hn : normKey (a1, t1) = normKey (a2, t2)) :
    ((a1, t1) ≠ (a2, t2) →
      deduplicate_albums (collectAlbumsFromSources
        [(s1, [(a1, t1)]), (s2, [(a2, t2)])]) =
      [((a1, t1),
        { sources := [s1], spotify_info := none, artist_info := none })]) ∧
    deduplicate_albums (collectAlbumsFromSources
      [(s1, [(a1, t1)]), (s2, [(a1, t1)])]) =
    [((a1, t1),
      { sources := [s1, s2], spotify_info := none, artist_info := none })] := by
  constructor
  · intro hk
    have h1 : collectAlbumsFromSources [(s1, [(a1, t1)]), (s2, [(a2, t2)])] =
        [((a1, t1), { sources := [s1], spotify_info := none, artist_info := none }),
         ((a2, t2), { sources := [s2], spotify_info := none, artist_info := none })] := by
      simp [collectAlbumsFromSources, addMention, keyMem, hk, Ne.symm hk]
    rw [h1]
    simp [deduplicate_albums, dedupStep, dictInsert, keyMem, eraseKey, hn, hk,
      Ne.symm hk, tracksOf]
  · have h1 : collectAlbumsFromSources [(s1, [(a1, t1)]), (s2, [(a1, t1)])] =
        [((a1, t1),
          { sources := [s1, s2], spotify_info := none, artist_info := none })] := by
      simp [collectAlbumsFromSources, addMention, keyMem]
    rw [h1]
    simp [deduplicate_albums, dedupStep, dictInsert, keyMem]

/-- Witness for the amended C3 at the spec's example mention pair. -/
theorem claim_c3_amended_witness :
    deduplicate_albums (collectAlbumsFromSources
      [("s1", [("Drake", "For All The Dogs")]),
       ("s2", [(" drake ", "for all the dogs")])]) =
    [(("Drake", "For All The Dogs"),
      { sources := ["s1"], spotify_info := none, artist_info := none })] ∧
    deduplicate_albums (collectAlbumsFromSources
      [("s1", [("Drake", "For All The Dogs")]),
       ("s2", [("Drake", "For All The Dogs")])]) =
    [(("Drake", "For All The Dogs"),
      { sources := ["s1", "s2"], spotify_info := none, artist_info := none })] :=
  ⟨(claim_c3_amended "Drake" "For All The Dogs" " drake " "for all the dogs"
      "s1" "s2" (by decide)).1 (by decide),
   (claim_c3_amended "Drake" "For All The Dogs" " drake " "for all the dogs"
      "s1" "s2" (by decide)).2⟩

/-- C4 counterexample: in the `collect_albums` flow the dedup runs before
catalog enrichment. Here the discarded variant `("a", "T")` would resolve
to a 10-track record while the kept entry resolves to nothing, yet the
first-encountered `("A", "T")` survives — so the tie-break does not keep
the entry with the strictly greater resolved track count, because
enrichment has not run when the tie-break is applied. -/
theorem claim_c4_counterexample :
    collect_albums [("source1", [("A", "T")]), ("source2", [("a", "T")])]
      (fun artist _ => if artist = "a" then
        some { uri := "u", tracks := 10, image_url := none, spotify_url := "s" }
        else none)
      (fun _ => { genres := ["Unknown"], followers := 0, popular_works := [],
                  spotify_url := "" }) =
    [(("A", "T"),
      { sources := ["source1"],
        spotify_info := none,
        artist_info := some { genres := ["Unknown"], followers := 0,
                              popular_works := [], spotify_url := "" } })] ∧
    (fun artist (_ : String) =>
      if artist = "a" then
        some ({ uri := "u", tracks := 10, image_url := none,
                spotify_url := "s" } : SpotifyInfo)
      else none) "a" "T" =
      some { uri := "u", tracks := 10, image_url := none, spotify_url := "s" } :=
  ⟨rfl, rfl⟩

/-- C4 (amended): `deduplicate_albums` does implement the tie-break on the
`spotify_info` the entries carry when it is called — strictly greater
track count wins, ties keep the first encountered — but in
`collect_albums` it runs before enrichment, when every `spotify_info` is
still `None`, so both counts are 0 and the first-encountered entry is
always kept, regardless of what the catalog would later resolve. -/
theorem claim_c4_amended (k1 k2 : String × String) (d1 d2 : AlbumData)
    (hn : normKey k1 = normKey k2) (hk : k1 ≠ k2) :
    (deduplicate_albums [(k1, d1), (k2, d2)] =
      if tracksOf d1.spotify_info < tracksOf d2.spotify_info
      then [(k2, d2)] else [(k1, d1)]) ∧
    (∀ (a1 t1 a2 t2 s1 s2 : String)
      (searchSpotify : String → String → Option SpotifyInfo)
      (artistInfo : String → ArtistInfo),
      normKey (a1, t1) = normKey (a2, t2) → (a1, t1) ≠ (a2, t2) →
      collect_albums [(s1, [(a1, t1)]), (s2, [(a2, t2)])]
        searchSpotify artistInfo =
      [((a1, t1), { sources := [s1],
                    spotify_info := searchSpotify a1 t1,
                    artist_info := some (artistInfo a1) })]) := by
  constructor
  · by_cases ht : tracksOf d1.spotify_info < tracksOf d2.spotify_info <;>
      simp [deduplicate_albums, dedupStep, dictInsert, keyMem, eraseKey, hn, hk,
        Ne.symm hk, ht]
  · intro a1 t1 a2 t2 s1 s2 searchSpotify artistInfo hn2 hk2
    have h1 : collectAlbumsFromSources [(s1, [(a1, t1)]), (s2, [(a2, t2)])] =
        [((a1, t1), { sources := [s1], spotify_info := none, artist_info := none }),
         ((a2, t2), { sources := [s2], spotify_info := none, artist_info := none })] := by
      simp [collectAlbumsFromSources, addMention, keyMem, hk2, Ne.symm hk2]
    unfold collect_albums
    rw [h1]
    have h2 : deduplicate_albums
        [((a1, t1), { sources := [s1], spotify_info := none, artist_info := none }),
         ((a2, t2), { sources := [s2], spotify_info := none, artist_info := none })] =
        [((a1, t1), { sources := [s1], spotify_info := none, artist_info := none })] := by
      simp [deduplicate_albums, dedupStep, dictInsert, keyMem, eraseKey, hn2, hk2,
        Ne.symm hk2, tracksOf]
    rw [h2]
    simp [enrichAlbums]

/-- Witness for the amended C4: the higher-count entry wins when the counts
are present at dedup time, and the first mention wins in the real
pre-enrichment flow. -/
theorem claim_c4_amended_witness :
    deduplicate_albums
      [(("A", "T"),
        { sources := ["s1"],
          spotify_info := some { uri := "u1", tracks := 2, image_url := none,
                                 spotify_url := "x1" },
          artist_info := none }),
       (("a", "T"),
        { sources := ["s2"],
          spotify_info := some { uri := "u2", tracks := 9, image_url := none,
                                 spotify_url := "x2" },
          artist_info := none })] =
      [(("a", "T"),
        { sources := ["s2"],
          spotify_info := some { uri := "u2", tracks := 9, image_url := none,
                                 spotify_url := "x2" },
          artist_info := none })] ∧
    collect_albums [("s1", [("A", "T")]), ("s2", [("a", "T")])]
      (fun _ _ => none)
      (fun _ => { genres := [], followers := 0, popular_works := [],
                  spotify_url := "" }) =
    [(("A", "T"),
      { sources := ["s1"],
        spotify_info := none,
        artist_info := some { genres := [], followers := 0, popular_works := [],
                              spotify_url := "" } })] := by
  have h := claim_c4_amended ("A", "T") ("a", "T")
    ({ sources := ["s1"],
       spotify_info := some { uri := "u1", tracks := 2, image_url := none,
                              spotify_url := "x1" },
       artist_info := none })
    ({ sources := ["s2"],
       spotify_info := some { uri := "u2", tracks := 9, image_url := none,
                              spotify_url := "x2" },
       artist_info := none }) (by decide) (by decide)
  refine ⟨?_, h.2 "A" "T" "a" "T" "s1" "s2" (fun _ _ => none)
    (fun _ => { genres := [], followers := 0, popular_works := [],
                spotify_url := "" }) (by decide) (by decide)⟩
  rw [h.1]
  decide

theorem keyMem_iff {κ β : Type} [DecidableEq κ] (m : List (κ × β)) (k : κ) :
    keyMem m k = true ↔ ∃ p ∈ m, p.1 = k := by
  simp [keyMem, List.any_eq_true]

theorem keyMem_eraseKey {κ β : Type} [DecidableEq κ] (m : List (κ × β))
    (k k' : κ) (h : keyMem m k = true) (hne : k ≠ k') :
    keyMem (eraseKey m k') k = true := by
  rw [keyMem_iff] at h ⊢
  obtain ⟨p, hp, hpk⟩ := h
  refine ⟨p, List.mem_filter.mpr ⟨hp, ?_⟩, hpk⟩
  simp [hpk, hne]

theorem dictInsert_of_not_mem {κ β : Type} [DecidableEq κ] (m : List (κ × β))
    (k : κ) (v : β) (h : keyMem m k = false) :
    dictInsert k v m = m ++ [(k, v)] := by
  unfold dictInsert
  rw [if_neg]
  simp [h]

theorem dictInsert_of_mem {κ β : Type} [DecidableEq κ] (m : List (κ × β))
    (k : κ) (v : β) (h : keyMem m k = true) :
    dictInsert k v m = m.map (fun p => if p.1 = k then (p.1, v) else p) := by
  unfold dictInsert
  rw [if_pos h]

theorem dictInsert_ne_nil {κ β : Type} [DecidableEq κ] (m : List (κ × β))
    (k : κ) (v : β) : dictInsert k v m ≠ [] := by
  unfold dictInsert
  split
  case isTrue h =>
    cases m with
    | nil => simp [keyMem] at h
    | cons p l => simp
  case isFalse h => simp

theorem dedupStep_seen_ne_nil (st : Albums × Seen)
    (it : (String × String) × AlbumData) : (dedupStep st it).2 ≠ [] := by
  rcases hfind : st.2.find? (fun p => decide (p.1 = normKey it.1)) with _ | q0
  · have hstep : (dedupStep st it).2 =
        dictInsert (normKey it.1) (it.1, it.2.spotify_info) st.2 := by
      simp [dedupStep, hfind]
    rw [hstep]
    exact dictInsert_ne_nil st.2 _ _
  · by_cases ht : tracksOf q0.2.2 < tracksOf it.2.spotify_info
    · have hstep : (dedupStep st it).2 =
          dictInsert (normKey it.1) (it.1, it.2.spotify_info) st.2 := by
        simp [dedupStep, hfind, ht]
      rw [hstep]
      exact dictInsert_ne_nil st.2 _ _
    · have hstep : (dedupStep st it).2 = st.2 := by
        simp [dedupStep, hfind, ht]
      rw [hstep]
      exact List.ne_nil_of_mem (List.mem_of_find?_eq_some hfind)

theorem foldl_dedup_seen_ne_nil :
    ∀ (snap : List ((String × String) × AlbumData)) (st : Albums × Seen),
    (st.2 ≠ [] ∨ snap ≠ []) → (List.foldl dedupStep st snap).2 ≠ [] := by
  intro snap
  induction snap with
  | nil =>
    intro st h
    rcases h with h | h
    · exact h
    · exact absurd rfl h
  | cons it rest ih =>
    intro st _
    rw [List.foldl_cons]
    exact ih (dedupStep st it) (Or.inl (dedupStep_seen_ne_nil st it))

theorem dedup_fold_invariant :
    ∀ (snap : List ((String × String) × AlbumData)) (albums : Albums) (seen : Seen),
    (∀ q ∈ seen, normKey q.2.1 = q.1) →
    (∀ q ∈ seen, keyMem albums q.2.1 = true) →
    (∀ it ∈ snap, keyMem albums it.1 = true) →
    List.Pairwise (fun a b => a.1 ≠ b.1) snap →
    (∀ it ∈ snap, ∀ q ∈ seen, it.1 ≠ q.2.1) →
    (∀ q ∈ (List.foldl dedupStep (albums, seen) snap).2, normKey q.2.1 = q.1) ∧
    (∀ q ∈ (List.foldl dedupStep (albums, seen) snap).2,
      keyMem (List.foldl dedupStep (albums, seen) snap).1 q.2.1 = true) := by
  intro snap
  induction snap with
  | nil =>
    intro albums seen hI1 hI2 _ _ _
    exact ⟨hI1, hI2⟩
  | cons it rest ih =>
    intro albums seen hI1 hI2 hK hD1 hD2
    rw [List.foldl_cons]
    have hKit : keyMem albums it.1 = true := hK it (List.mem_cons_self it rest)
    have hD1rest : List.Pairwise (fun a b => a.1 ≠ b.1) rest := hD1.of_cons
    have hD1head : ∀ b ∈ rest, it.1 ≠ b.1 :=
      fun b hb => List.rel_of_pairwise_cons hD1 hb
    rcases hfind : seen.find? (fun p => decide (p.1 = normKey it.1)) with _ | q0
    · -- not seen before: insert into seen, albums untouched
      have hstep : dedupStep (albums, seen) it =
          (albums, dictInsert (normKey it.1) (it.1, it.2.spotify_info) seen) := by
        simp [dedupStep, hfind]
      rw [hstep]
      have hnk : keyMem seen (normKey it.1) = false := by
        rw [List.find?_eq_none] at hfind
        rw [Bool.eq_false_iff]
        intro hk
        obtain ⟨p, hp, hpk⟩ := (keyMem_iff seen (normKey it.1)).mp hk
        have hnp : ¬ p.1 = normKey it.1 := by simpa using hfind p hp
        exact hnp hpk
      rw [dictInsert_of_not_mem seen _ _ hnk]
      refine ih albums (seen ++ [(normKey it.1, (it.1, it.2.spotify_info))])
        ?_ ?_ ?_ hD1rest ?_
      · intro q hq
        rcases List.mem_append.mp hq with hq | hq
        · exact hI1 q hq
        · rw [List.mem_singleton.mp hq]
      · intro q hq
        rcases List.mem_append.mp hq with hq | hq
        · exact hI2 q hq
        · rw [List.mem_singleton.mp hq]
          exact hKit
      · intro u hu
        exact hK u (List.mem_cons_of_mem it hu)
      · intro u hu q hq
        rcases List.mem_append.mp hq with hq | hq
        · exact hD2 u (List.mem_cons_of_mem it hu) q hq
        · rw [List.mem_singleton.mp hq]
          exact (hD1head u hu).symm
    · -- the normalized key was seen before
      have hq0mem : q0 ∈ seen := List.mem_of_find?_eq_some hfind
      have hq0key : q0.1 = normKey it.1 := by
        have := List.find?_some hfind
        simpa using this
      have hq0norm : normKey q0.2.1 = normKey it.1 := by
        rw [hI1 q0 hq0mem, hq0key]
      have hitq0 : it.1 ≠ q0.2.1 := hD2 it (List.mem_cons_self it rest) q0 hq0mem
      have hnkmem : keyMem seen (normKey it.1) = true := by
        rw [keyMem_iff]
        exact ⟨q0, hq0mem, hq0key⟩
      by_cases ht : tracksOf q0.2.2 < tracksOf it.2.spotify_info
      · -- replace: erase the stored raw key, overwrite the seen entry
        have hstep : dedupStep (albums, seen) it =
            (eraseKey albums q0.2.1,
             dictInsert (normKey it.1) (it.1, it.2.spotify_info) seen) := by
          simp [dedupStep, hfind, ht]
        rw [hstep, dictInsert_of_mem seen _ _ hnkmem]
        refine ih (eraseKey albums q0.2.1) _ ?_ ?_ ?_ hD1rest ?_
        · intro q hq
          obtain ⟨p, hp, hpq⟩ := List.mem_map.mp hq
          by_cases hpk : p.1 = normKey it.1
          · rw [if_pos hpk] at hpq
            rw [← hpq]
            exact hpk.symm
          · rw [if_neg hpk] at hpq
            rw [← hpq]
            exact hI1 p hp
        · intro q hq
          obtain ⟨p, hp, hpq⟩ := List.mem_map.mp hq
          by_cases hpk : p.1 = normKey it.1
          · rw [if_pos hpk] at hpq
            rw [← hpq]
            exact keyMem_eraseKey albums it.1 q0.2.1 hKit hitq0
          · rw [if_neg hpk] at hpq
            rw [← hpq]
            refine keyMem_eraseKey albums p.2.1 q0.2.1 (hI2 p hp) ?_
            intro he
            apply hpk
            rw [← hI1 p hp, he, hq0norm]
        · intro u hu
          refine keyMem_eraseKey albums u.1 q0.2.1
            (hK u (List.mem_cons_of_mem it hu)) ?_
          exact hD2 u (List.mem_cons_of_mem it hu) q0 hq0mem
        · intro u hu q hq
          obtain ⟨p, hp, hpq⟩ := List.mem_map.mp hq
          by_cases hpk : p.1 = normKey it.1
          · rw [if_pos hpk] at hpq
            rw [← hpq]
            exact (hD1head u hu).symm
          · rw [if_neg hpk] at hpq
            rw [← hpq]
            exact hD2 u (List.mem_cons_of_mem it hu) p hp
      · -- keep the existing entry: erase the current raw key
        have hstep : dedupStep (albums, seen) it =
            (eraseKey albums it.1, seen) := by
          simp [dedupStep, hfind, ht]
        rw [hstep]
        refine ih (eraseKey albums it.1) seen hI1 ?_ ?_ hD1rest ?_
        · intro q hq
          refine keyMem_eraseKey albums q.2.1 it.1 (hI2 q hq) ?_
          exact (hD2 it (List.mem_cons_self it rest) q hq).symm
        · intro u hu
          refine keyMem_eraseKey albums u.1 it.1
            (hK u (List.mem_cons_of_mem it hu)) ?_
          exact (hD1head u hu).symm
        · intro u hu q hq
          exact hD2 u (List.mem_cons_of_mem it hu) q hq

theorem deduplicate_albums_ne_nil (albums : Albums)
    (hnd : List.Pairwise (fun a b => a.1 ≠ b.1) albums) (hne : albums ≠ []) :
    deduplicate_albums albums ≠ [] := by
  unfold deduplicate_albums
  obtain ⟨_, hI2⟩ := dedup_fold_invariant albums albums []
    (by simp) (by simp)
    (fun it hit => (keyMem_iff albums it.1).mpr ⟨it, hit, rfl⟩) hnd (by simp)
  have hseen := foldl_dedup_seen_ne_nil albums (albums, []) (Or.inr hne)
  rcases hq : (List.foldl dedupStep (albums, []) albums).2 with _ | ⟨q, rest⟩
  · exact absurd hq hseen
  · intro hres
    have := hI2 q (hq ▸ List.mem_cons_self q rest)
    rw [hres] at this
    simp [keyMem] at this

theorem addMention_ne_nil (albums : Albums) (src : String) (k : String × String) :
    addMention albums src k ≠ [] := by
  unfold addMention
  split
  case isTrue h =>
    cases albums with
    | nil => simp [keyMem] at h
    | cons p l => simp
  case isFalse h => simp

theorem foldl_addMention_ne_nil :
    ∀ (ms : List (String × String)) (albums : Albums) (src : String),
    (albums ≠ [] ∨ ms ≠ []) →
    List.foldl (fun a m => addMention a src m) albums ms ≠ [] := by
  intro ms
  induction ms with
  | nil =>
    intro albums src h
    rcases h with h | h
    · exact h
    · exact absurd rfl h
  | cons m ms ih =>
    intro albums src _
    rw [List.foldl_cons]
    exact ih _ src (Or.inl (addMention_ne_nil albums src m))

theorem foldl_sources_ne_nil :
    ∀ (srcs : List (String × List (String × String))) (albums : Albums),
    albums ≠ [] →
    List.foldl (fun acc s => s.2.foldl (fun a m => addMention a s.1 m) acc)
      albums srcs ≠ [] := by
  intro srcs
  induction srcs with
  | nil => intro albums h; exact h
  | cons s srcs ih =>
    intro albums h
    rw [List.foldl_cons]
    exact ih _ (foldl_addMention_ne_nil s.2 albums s.1 (Or.inl h))

theorem collectAlbumsFromSources_ne_nil (s : String × List (String × String))
    (rest : List (String × List (String × String))) (hs : s.2 ≠ []) :
    collectAlbumsFromSources (s :: rest) ≠ [] := by
  unfold collectAlbumsFromSources
  rw [List.foldl_cons]
  exact foldl_sources_ne_nil rest _ (foldl_addMention_ne_nil s.2 [] s.1 (Or.inr hs))

theorem pairwise_keys_addMention (albums : Albums) (src : String)
    (k : String × String)
    (h : List.Pairwise (fun a b => a.1 ≠ b.1) albums) :
    List.Pairwise (fun a b => a.1 ≠ b.1) (addMention albums src k) := by
  unfold addMention
  split
  case isTrue hk =>
    rw [List.pairwise_map]
    refine h.imp ?_
    intro a b hab
    have hfa : ∀ p : (String × String) × AlbumData,
        (if p.1 = k then (p.1, { p.2 with sources := p.2.sources ++ [src] })
         else p).1 = p.1 := by
      intro p
      by_cases hp : p.1 = k <;> simp [hp]
    rw [hfa a, hfa b]
    exact hab
  case isFalse hk =>
    rw [List.pairwise_append]
    refine ⟨h, List.pairwise_singleton _ _, ?_⟩
    intro a ha b hb
    rw [List.mem_singleton.mp hb]
    intro he
    have : keyMem albums k = true := (keyMem_iff albums k).mpr ⟨a, ha, he⟩
    rw [this] at hk
    exact hk rfl

theorem pairwise_keys_foldl_addMention :
    ∀ (ms : List (String × String)) (albums : Albums) (src : String),
    List.Pairwise (fun a b => a.1 ≠ b.1) albums →
    List.Pairwise (fun a b => a.1 ≠ b.1)
      (List.foldl (fun a m => addMention a src m) albums ms) := by
  intro ms
  induction ms with
  | nil => intro albums src h; exact h
  | cons m ms ih =>
    intro albums src h
    rw [List.foldl_cons]
    exact ih _ src (pairwise_keys_addMention albums src m h)

theorem pairwise_keys_collectAlbumsFromSources
    (srcs : List (String × List (String × String))) :
    List.Pairwise (fun a b => a.1 ≠ b.1) (collectAlbumsFromSources srcs) := by
  unfold collectAlbumsFromSources
  suffices h : ∀ (ss : List (String × List (String × String))) (albums : Albums),
      List.Pairwise (fun a b => a.1 ≠ b.1) albums →
      List.Pairwise (fun a b => a.1 ≠ b.1)
        (List.foldl (fun acc s => s.2.foldl (fun a m => addMention a s.1 m) acc)
          albums ss) by
    exact h srcs [] List.Pairwise.nil
  intro ss
  induction ss with
  | nil => intro albums h; exact h
  | cons s ss ih =>
    intro albums h
    rw [List.foldl_cons]
    exact ih _ (pairwise_keys_foldl_addMention s.2 albums s.1 h)

theorem scrapeSource_ok_ne_nil (e : String) (fmt : Nat → String) (d : Nat)
    (tokens : List Tok) (l : List (String × String))
    (h : scrapeSource e fmt d tokens = Except.ok l) : l ≠ [] := by
  unfold scrapeSource at h
  rcases hw : scrapeWindow fmt d tokens with _ | ⟨a, rest⟩
  · rw [hw] at h
    exact absurd h (by simp)
  · rw [hw] at h
    have h' : (Except.ok (a :: rest) : Except String (List (String × String))) =
        Except.ok l := h
    rw [← Except.ok.inj h']
    simp

theorem collectScrapes_ok (fmtM fmtG fmtW : Nat → String) (d : Nat)
    (tM tG tW : List Tok) (srcs : List (String × List (String × String)))
    (h : collectScrapes fmtM fmtG fmtW d tM tG tW = Except.ok srcs) :
    ∃ m g w, m ≠ [] ∧
      srcs = [("Metacritic", m), ("Genius", g), ("Wikipedia", w)] := by
  unfold collectScrapes at h
  rcases hM : scrapeSource
      "Metacritic: No albums found or site structure may have changed"
      fmtM d tM with eM | m
  · rw [hM] at h
    exact absurd h (by simp [Bind.bind, Except.bind])
  rcases hG : scrapeSource
      "Genius: No albums found or site structure may have changed"
      fmtG d tG with eG | g
  · rw [hM, hG] at h
    exact absurd h (by simp [Bind.bind, Except.bind])
  rcases hW : scrapeSource
      "Wikipedia: No albums found or site structure may have changed"
      fmtW d tW with eW | w
  · rw [hM, hG, hW] at h
    exact absurd h (by simp [Bind.bind, Except.bind])
  rw [hM, hG, hW] at h
  simp only [Bind.bind, Except.bind, pure, Except.pure] at h
  exact ⟨m, g, w, scrapeSource_ok_ne_nil _ fmtM d tM m hM,
    (Except.ok.inj h).symm⟩

/-- C7: the monitor pass invokes its notification dispatch iff the batch is
non-empty (`len(releases_to_send_emails_for) > 0`), and a completed
aggregation run only ever hands a non-empty album collection to the email
dispatch (an empty collection is impossible on the success path, because a
source with zero mentions aborts the run before dispatch). -/
theorem claim_c7_empty_skip :
    (∀ (now today : Nat) (fetch : String → Except String (List SpAlbum))
      (artists : List (String × MonArtist)) (known0 : Ledger),
      ((check_for_new_releases now today fetch artists known0).dispatched = true ↔
        (check_for_new_releases now today fetch artists known0).batch ≠ [])) ∧
    (∀ (fmtM fmtG fmtW : Nat → String) (d : Nat) (tM tG tW : List Tok)
      (searchSpotify : String → String → Option SpotifyInfo)
      (artistInfo : String → ArtistInfo) (albums : Albums),
      run_once fmtM fmtG fmtW d tM tG tW searchSpotify artistInfo =
        Except.ok albums →
      albums ≠ []) := by
  constructor
  · intro now today fetch artists known0
    simp only [check_for_new_releases, decide_eq_true_eq]
    rw [List.length_pos]
  · intro fmtM fmtG fmtW d tM tG tW searchSpotify artistInfo albums h
    unfold run_once at h
    rcases hC : collectScrapes fmtM fmtG fmtW d tM tG tW with e | srcs
    · rw [hC] at h
      exact absurd h (by simp [Bind.bind, Except.bind])
    rw [hC] at h
    simp only [Bind.bind, Except.bind, pure, Except.pure] at h
    obtain ⟨m, g, w, hm, hsrcs⟩ := collectScrapes_ok fmtM fmtG fmtW d tM tG tW srcs hC
    rw [← Except.ok.inj h]
    unfold collect_albums enrichAlbums
    intro hnil
    rw [List.map_eq_nil_iff] at hnil
    refine deduplicate_albums_ne_nil (collectAlbumsFromSources srcs)
      (pairwise_keys_collectAlbumsFromSources srcs) ?_ hnil
    rw [hsrcs]
    exact collectAlbumsFromSources_ne_nil _ _ hm

/-- Witness for C7: a concrete monitor pass with one new same-day release
dispatches a non-empty batch, and a concrete successful aggregation run
hands a non-empty album collection to the dispatch. -/
theorem claim_c7_witness :
    (check_for_new_releases 9 5
      (fun _ => Except.ok [{ id := "r", name := "x", album_type := "album",
                             release_date_precision := "day", release_date := 5,
                             url := "u" }])
      [("a", { name := "n", last_check := none })] []).batch ≠ [] ∧
    ([(("x", "y"),
       { sources := ["Metacritic", "Genius", "Wikipedia"],
         spotify_info := none,
         artist_info := some { genres := [], followers := 0, popular_works := [],
                               spotify_url := "" } })] : Albums) ≠ [] :=
  ⟨(claim_c7_empty_skip.1 9 5
      (fun _ => Except.ok [{ id := "r", name := "x", album_type := "album",
                             release_date_precision := "day", release_date := 5,
                             url := "u" }])
      [("a", { name := "n", last_check := none })] []).mp (by decide),
   claim_c7_empty_skip.2 (fun n => toString n) (fun n => toString n)
     (fun n => toString n) 0
     [Tok.marker (toString 0), Tok.entry "x" "y"]
     [Tok.marker (toString 0), Tok.entry "x" "y"]
     [Tok.marker (toString 0), Tok.entry "x" "y"]
     (fun _ _ => none)
     (fun _ => { genres := [], followers := 0, popular_works := [],
                 spotify_url := "" })
     [(("x", "y"),
       { sources := ["Metacritic", "Genius", "Wikipedia"],
         spotify_info := none,
         artist_info := some { genres := [], followers := 0, popular_works := [],
                               spotify_url := "" } })] (by rfl)⟩


end Neumusic
